import Mathlib

/-!
Verification of the EUI selectable list toggle logic
(`src/components/common.ts`, class `EuiSelectableList`), the super-update
button (`super_update_button.tsx`) and the relative-time parser
`parseTimeParts` (known from its test file; the implementation is modelled
from the specification).

Reference (JavaScript object) identity of options inside the options array
is embedded positionally: the clicked option is identified by its index in
the array, and the source's `option === clickedOption` comparison becomes
an index comparison.  In-place mutation of an option object (the exclude
path) is embedded as an update of the array at that index, and the single
`onOptionClick(updatedOptions)` callback is recorded in a list of calls.
-/

/-- Tri-state checked flag of a selectable option: the JavaScript values
are the strings "on" and "off"; absence of the `checked` key is embedded
as `Option.none` around this type. -/
inductive Checked where
  | on : Checked
  | off : Checked
deriving DecidableEq, Repr

/-- A selectable option (`EuiSelectableOption`): `checked` is `none` when
the object has no `checked` key.  Fields irrelevant to the toggle logic
(`prepend`, `append`, …) are summarised by `label`, `disabled` and
`isGroupLabel`, the ones the logic reads. -/
structure Opt where
  label : String
  checked : Option Checked
  disabled : Bool
  isGroupLabel : Bool
deriving DecidableEq, Repr

/-- The `singleSelection` prop: `'always' | boolean` (an absent prop
behaves as `false`, collapsed into `no`). -/
inductive SingleSelection where
  | always : SingleSelection
  | yes : SingleSelection
  | no : SingleSelection
deriving DecidableEq, Repr

/-- Truthiness of the `singleSelection` prop in JavaScript: both `'always'`
and `true` are truthy, `false` (or absent) is falsy. -/
def SingleSelection.truthy : SingleSelection → Bool
  | SingleSelection.no => false
  | _ => true

/-- Map over a list together with the index of each element, starting the
count at `k`.  `Array.prototype.map` with the index-based embedding of the
source's reference comparison uses `mapFrom f 0`. -/
def mapFrom (f : Nat → Opt → Opt) : Nat → List Opt → List Opt
  | _, [] => []
  | k, o :: rest => f k o :: mapFrom f (k + 1) rest

/-- Result of one click handler run: the options array as the handler
leaves it (this captures the exclude path's in-place mutation) and the list
of `onOptionClick` invocations, each carrying the array it was passed. -/
structure ClickResult where
  options : List Opt
  calls : List (List Opt)
deriving DecidableEq, Repr

/-- Per-option body of the `options.map` callback in `onAddOption`: make
a shallow copy, clear `checked` when `singleSelection` is truthy, and set
`checked` to "on" when this is the clicked (`addedIndex`) option. -/
def addUpdate (singleSelection : SingleSelection) (addedIndex j : Nat)
    (option : Opt) : Opt :=
  let updatedOption := if singleSelection.truthy
    then { option with checked := none } else option
  if j = addedIndex
    then { updatedOption with checked := some Checked.on }
    else updatedOption

/-- Embedding of `onAddOption`: map `addUpdate` over the options and
invoke the callback once with the new array. -/
def onAddOption (singleSelection : SingleSelection) (options : List Opt)
    (addedIndex : Nat) : ClickResult :=
  let updatedOptions := mapFrom (addUpdate singleSelection addedIndex) 0 options
  { options := options, calls := [updatedOptions] }

/-- Per-option body of the `options.map` callback in `onRemoveOption`:
make a shallow copy, clearing `checked` on the clicked (`removedIndex`)
option unless `singleSelection` is `'always'`. -/
def removeUpdate (singleSelection : SingleSelection) (removedIndex j : Nat)
    (option : Opt) : Opt :=
  if j = removedIndex ∧ singleSelection ≠ SingleSelection.always
    then { option with checked := none }
    else option

/-- Embedding of `onRemoveOption`: map `removeUpdate` over the options and
invoke the callback once with the new array. -/
def onRemoveOption (singleSelection : SingleSelection) (options : List Opt)
    (removedIndex : Nat) : ClickResult :=
  let updatedOptions := mapFrom (removeUpdate singleSelection removedIndex) 0 options
  { options := options, calls := [updatedOptions] }

/-- Setting `checked` to "off" on the option at `excludedIndex`: used once
for the in-place mutation `excludedOption.checked = 'off'` (visible through
the input array) and once as the body of the `options.map` copy. -/
def excludeUpdate (excludedIndex j : Nat) (option : Opt) : Opt :=
  if j = excludedIndex
    then { option with checked := some Checked.off }
    else option

/-- Embedding of `onExcludeOption`: first mutate the clicked option object
in place, then copy every option, setting `checked` to "off" on the
clicked one, and invoke the callback once with the new array. -/
def onExcludeOption (options : List Opt) (excludedIndex : Nat) : ClickResult :=
  let mutated := mapFrom (excludeUpdate excludedIndex) 0 options
  let updatedOptions := mapFrom (excludeUpdate excludedIndex) 0 mutated
  { options := mutated, calls := [updatedOptions] }

/-- Label of the branch taken by the dispatch handler. -/
inductive Branch where
  | exclude : Branch
  | remove : Branch
  | add : Branch
deriving DecidableEq, Repr

/-- Embedding of `onAddOrRemoveOption`, the click dispatch handler: a
disabled option returns immediately (no branch, no callback); otherwise
checked "on" with exclusions allowed goes to exclude, checked "on" or
"off" goes to remove, and anything else goes to add.  A click can only
land on an existing option, so an out-of-range index is also a no-op. -/
def onAddOrRemoveOption (allowExclusions : Bool)
    (singleSelection : SingleSelection) (options : List Opt)
    (i : Nat) : Option Branch × ClickResult :=
  match options[i]? with
  | none => (none, { options := options, calls := [] })
  | some option =>
    if option.disabled then
      (none, { options := options, calls := [] })
    else if option.checked = some Checked.on ∧ allowExclusions then
      (some Branch.exclude, onExcludeOption options i)
    else if option.checked = some Checked.on ∨ option.checked = some Checked.off then
      (some Branch.remove, onRemoveOption singleSelection options i)
    else
      (some Branch.add, onAddOption singleSelection options i)

/-- Agreement of two options on every field other than `checked`. -/
def sameExceptChecked (a b : Opt) : Prop :=
  a.label = b.label ∧ a.disabled = b.disabled ∧ a.isGroupLabel = b.isGroupLabel

instance : DecidablePred fun p : Opt × Opt => sameExceptChecked p.1 p.2 :=
  fun _ => by unfold sameExceptChecked; infer_instance

theorem length_mapFrom (f : Nat → Opt → Opt) (k : Nat) (l : List Opt) :
    (mapFrom f k l).length = l.length := by
  induction l generalizing k with
  | nil => rfl
  | cons o rest ih => simp [mapFrom, ih]

theorem getElem?_mapFrom (f : Nat → Opt → Opt) (k : Nat) (l : List Opt)
    (j : Nat) : (mapFrom f k l)[j]? = (l[j]?).map (f (k + j)) := by
  induction l generalizing k j with
  | nil => simp [mapFrom]
  | cons o rest ih =>
    cases j with
    | zero => simp [mapFrom]
    | succ j =>
      simp only [mapFrom, List.getElem?_cons_succ, ih (k + 1) j]
      have h : k + 1 + j = k + (j + 1) := by omega
      rw [h]

/-- Copy of an option with the `checked` key removed; two options agree on
every field other than `checked` exactly when their `stripChecked` images
are equal. -/
def stripChecked (o : Opt) : Opt :=
  { o with checked := none }

theorem sameExceptChecked_iff_strip (a b : Opt) :
    sameExceptChecked a b ↔ stripChecked a = stripChecked b := by
  cases a; cases b
  simp [sameExceptChecked, stripChecked, and_assoc]

theorem mapFrom_eq_self (f : Nat → Opt → Opt) (hf : ∀ j a, f j a = a)
    (k : Nat) (l : List Opt) : mapFrom f k l = l := by
  induction l generalizing k with
  | nil => rfl
  | cons o rest ih => simp [mapFrom, hf, ih]

theorem map_stripChecked_mapFrom (f : Nat → Opt → Opt)
    (hf : ∀ j a, stripChecked (f j a) = stripChecked a) (k : Nat)
    (l : List Opt) :
    (mapFrom f k l).map stripChecked = l.map stripChecked := by
  induction l generalizing k with
  | nil => rfl
  | cons o rest ih => simp [mapFrom, hf, ih]

theorem addUpdate_eq (singleSelection : SingleSelection) (i j : Nat)
    (o : Opt) :
    addUpdate singleSelection i j o =
      if j = i then { o with checked := some Checked.on }
      else if singleSelection.truthy then { o with checked := none }
      else o := by
  by_cases h : j = i <;> cases ht : singleSelection.truthy <;>
    simp [addUpdate, h, ht]

theorem stripChecked_addUpdate (singleSelection : SingleSelection)
    (i j : Nat) (o : Opt) :
    stripChecked (addUpdate singleSelection i j o) = stripChecked o := by
  rw [addUpdate_eq]
  split
  · rfl
  · split <;> rfl

theorem stripChecked_removeUpdate (singleSelection : SingleSelection)
    (i j : Nat) (o : Opt) :
    stripChecked (removeUpdate singleSelection i j o) = stripChecked o := by
  unfold removeUpdate
  split <;> rfl

theorem stripChecked_excludeUpdate (i j : Nat) (o : Opt) :
    stripChecked (excludeUpdate i j o) = stripChecked o := by
  unfold excludeUpdate
  split <;> rfl

/-- Claim C10: a click on a disabled option is a complete no-op: no branch
of the dispatch is selected, `onOptionClick` is never invoked, and the
options array is left untouched. -/
theorem disabled_click_noop (allowExclusions : Bool)
    (singleSelection : SingleSelection) (options : List Opt) (i : Nat)
    (o : Opt) (ho : options[i]? = some o) (hdis : o.disabled = true) :
    onAddOrRemoveOption allowExclusions singleSelection options i
      = (none, { options := options, calls := [] }) := by
  simp [onAddOrRemoveOption, ho, hdis]

theorem disabled_click_noop_witness :
    onAddOrRemoveOption true SingleSelection.yes
        [{ label := "a", checked := some Checked.on, disabled := true,
           isGroupLabel := false }] 0
      = (none,
         { options := [{ label := "a", checked := some Checked.on,
                         disabled := true, isGroupLabel := false }],
           calls := [] }) :=
  disabled_click_noop true SingleSelection.yes _ 0
    { label := "a", checked := some Checked.on, disabled := true,
      isGroupLabel := false } rfl rfl

/-- Claim C1: for a click on a non-disabled option the dispatch runs
exactly one of the three toggle operations: exclude when the option is
checked "on" and exclusions are allowed, otherwise remove when it is
checked "on" or "off", otherwise add. -/
theorem dispatch_rule (allowExclusions : Bool)
    (singleSelection : SingleSelection) (options : List Opt) (i : Nat)
    (o : Opt) (ho : options[i]? = some o) (hdis : o.disabled = false) :
    (o.checked = some Checked.on → allowExclusions = true →
      onAddOrRemoveOption allowExclusions singleSelection options i
        = (some Branch.exclude, onExcludeOption options i)) ∧
    (¬(o.checked = some Checked.on ∧ allowExclusions = true) →
      (o.checked = some Checked.on ∨ o.checked = some Checked.off) →
      onAddOrRemoveOption allowExclusions singleSelection options i
        = (some Branch.remove, onRemoveOption singleSelection options i)) ∧
    (o.checked ≠ some Checked.on → o.checked ≠ some Checked.off →
      onAddOrRemoveOption allowExclusions singleSelection options i
        = (some Branch.add, onAddOption singleSelection options i)) := by
  refine ⟨fun hon hae => ?_, fun hnot hor => ?_, fun hn1 hn2 => ?_⟩
  · simp [onAddOrRemoveOption, ho, hdis, hon, hae]
  · simp only [onAddOrRemoveOption, ho, hdis]
    rw [if_neg (by simp), if_neg hnot, if_pos hor]
  · simp only [onAddOrRemoveOption, ho, hdis]
    rw [if_neg (by simp), if_neg (by tauto), if_neg (by tauto)]

theorem dispatch_rule_witness :
    onAddOrRemoveOption true SingleSelection.no
        [{ label := "a", checked := some Checked.on, disabled := false,
           isGroupLabel := false }] 0
      = (some Branch.exclude,
         onExcludeOption
           [{ label := "a", checked := some Checked.on, disabled := false,
              isGroupLabel := false }] 0) :=
  (dispatch_rule true SingleSelection.no _ 0
    { label := "a", checked := some Checked.on, disabled := false,
      isGroupLabel := false } rfl rfl).1 rfl rfl

/-- Claim C3: the add operation sets the clicked option's checked to "on";
with single-selection enabled every other option's checked is cleared, and
with single-selection disabled every other option is unchanged. -/
theorem onAddOption_sets_on (singleSelection : SingleSelection)
    (options : List Opt) (i : Nat) (hi : i < options.length) :
    ∃ arr, (onAddOption singleSelection options i).calls = [arr] ∧
      arr.length = options.length ∧
      arr[i]? = (options[i]?).map
        (fun o => { o with checked := some Checked.on }) ∧
      (singleSelection.truthy = true → ∀ j, j ≠ i →
        arr[j]? = (options[j]?).map (fun o => { o with checked := none })) ∧
      (singleSelection.truthy = false → ∀ j, j ≠ i →
        arr[j]? = options[j]?) := by
  refine ⟨_, rfl, length_mapFrom _ _ _, ?_, ?_, ?_⟩
  · rw [getElem?_mapFrom, Nat.zero_add]
    cases options[i]? with
    | none => rfl
    | some o => simp [addUpdate_eq]
  · intro hss j hj
    rw [getElem?_mapFrom, Nat.zero_add]
    cases options[j]? with
    | none => rfl
    | some o => simp [addUpdate_eq, hss, hj]
  · intro hss j hj
    rw [getElem?_mapFrom, Nat.zero_add]
    cases options[j]? with
    | none => rfl
    | some o => simp [addUpdate_eq, hss, hj]

theorem onAddOption_sets_on_witness :
    ∃ arr,
      (onAddOption SingleSelection.yes
        [{ label := "a", checked := none, disabled := false,
           isGroupLabel := false },
         { label := "b", checked := some Checked.on, disabled := false,
           isGroupLabel := false }] 0).calls = [arr] ∧
      arr.length = 2 ∧
      arr[0]? = some { label := "a", checked := some Checked.on,
                       disabled := false, isGroupLabel := false } ∧
      arr[1]? = some { label := "b", checked := none, disabled := false,
                       isGroupLabel := false } := by
  obtain ⟨arr, hcalls, hlen, hi, hclear, _⟩ :=
    onAddOption_sets_on SingleSelection.yes
      [{ label := "a", checked := none, disabled := false,
         isGroupLabel := false },
       { label := "b", checked := some Checked.on, disabled := false,
         isGroupLabel := false }] 0 (by decide)
  exact ⟨arr, hcalls, hlen, hi, by simpa using hclear rfl 1 (by decide)⟩

/-- Claim C5: every toggle operation invokes the callback exactly once
with an array of the same length and order whose elements agree with the
input on every field other than `checked`; add and remove leave the input
array untouched, while exclude first sets the clicked input option's
checked to "off" in place. -/
theorem toggle_frame (singleSelection : SingleSelection) (options : List Opt)
    (i : Nat) (hi : i < options.length) :
    ((onAddOption singleSelection options i).options = options ∧
     ∃ arr, (onAddOption singleSelection options i).calls = [arr] ∧
       arr.map stripChecked = options.map stripChecked) ∧
    ((onRemoveOption singleSelection options i).options = options ∧
     ∃ arr, (onRemoveOption singleSelection options i).calls = [arr] ∧
       arr.map stripChecked = options.map stripChecked) ∧
    ((∀ j, ((onExcludeOption options i).options)[j]? =
        if j = i
          then (options[j]?).map
            (fun o => { o with checked := some Checked.off })
          else options[j]?) ∧
     ∃ arr, (onExcludeOption options i).calls = [arr] ∧
       arr.map stripChecked = options.map stripChecked) := by
  refine ⟨⟨rfl, _, rfl,
            map_stripChecked_mapFrom _ (stripChecked_addUpdate singleSelection i) 0 options⟩,
          ⟨rfl, _, rfl,
            map_stripChecked_mapFrom _ (stripChecked_removeUpdate singleSelection i) 0 options⟩,
          ⟨?_, _, rfl, ?_⟩⟩
  · intro j
    show (mapFrom (excludeUpdate i) 0 options)[j]? = _
    rw [getElem?_mapFrom, Nat.zero_add]
    by_cases h : j = i
    · cases options[j]? with
      | none => simp [h]
      | some o => simp [h, excludeUpdate]
    · cases options[j]? with
      | none => simp [h]
      | some o => simp [h, excludeUpdate]
  · show (mapFrom (excludeUpdate i) 0
        (mapFrom (excludeUpdate i) 0 options)).map stripChecked = _
    rw [map_stripChecked_mapFrom _ (stripChecked_excludeUpdate i),
        map_stripChecked_mapFrom _ (stripChecked_excludeUpdate i)]

theorem toggle_frame_witness :
    (onAddOption SingleSelection.no
        [{ label := "a", checked := none, disabled := false,
           isGroupLabel := false }] 0).options
      = [{ label := "a", checked := none, disabled := false,
           isGroupLabel := false }] ∧
    (onExcludeOption
        [{ label := "a", checked := some Checked.on, disabled := false,
           isGroupLabel := false }] 0).options[0]?
      = some { label := "a", checked := some Checked.off, disabled := false,
               isGroupLabel := false } := by
  constructor
  · exact (toggle_frame SingleSelection.no _ 0 (by decide)).1.1
  · have h := ((toggle_frame SingleSelection.no
      [{ label := "a", checked := some Checked.on, disabled := false,
         isGroupLabel := false }] 0 (by decide)).2.2).1 0
    simpa using h

/-- Claim C2: starting from an all-unchecked options array, in
single-selection mode, clicking option `i` produces an array in which only
index `i` is checked "on"; clicking `i` again produces an array with no
checked key on any option, except in `'always'` single-selection mode,
where the second click yields the array unchanged. -/
theorem single_selection_two_clicks (singleSelection : SingleSelection)
    (options : List Opt) (i : Nat) (o : Opt)
    (hss : singleSelection.truthy = true)
    (ho : options[i]? = some o) (hdis : o.disabled = false)
    (hall : ∀ a ∈ options, a.checked = none) :
    ∃ arr1,
      (onAddOrRemoveOption false singleSelection options i).2.calls = [arr1] ∧
      arr1.length = options.length ∧
      (∀ j (a : Opt), arr1[j]? = some a →
        a.checked = if j = i then some Checked.on else none) ∧
      ∃ arr2,
        (onAddOrRemoveOption false singleSelection arr1 i).2.calls = [arr2] ∧
        (singleSelection = SingleSelection.always → arr2 = arr1) ∧
        (singleSelection ≠ SingleSelection.always →
          ∀ a ∈ arr2, a.checked = none) := by
  have hoc : o.checked = none := hall o (List.getElem?_mem ho)
  have h1 : onAddOrRemoveOption false singleSelection options i
      = (some Branch.add, onAddOption singleSelection options i) := by
    simp [onAddOrRemoveOption, ho, hdis, hoc]
  rw [h1]
  have hpt : ∀ j (a : Opt),
      (mapFrom (addUpdate singleSelection i) 0 options)[j]? = some a →
      a.checked = if j = i then some Checked.on else none := by
    intro j a hj
    rw [getElem?_mapFrom, Nat.zero_add] at hj
    cases hoj : options[j]? with
    | none => rw [hoj] at hj; simp at hj
    | some b =>
      rw [hoj] at hj
      have hab := Option.some.inj hj
      rw [← hab, addUpdate_eq]
      by_cases h : j = i
      · simp [h]
      · simp [h, hss, hall b (List.getElem?_mem hoj)]
  refine ⟨_, rfl, length_mapFrom _ _ _, hpt, ?_⟩
  have harr1i : (mapFrom (addUpdate singleSelection i) 0 options)[i]?
      = some (addUpdate singleSelection i i o) := by
    rw [getElem?_mapFrom, Nat.zero_add, ho]; rfl
  have hc1 : (addUpdate singleSelection i i o).checked = some Checked.on := by
    rw [addUpdate_eq]; simp
  have hd1 : (addUpdate singleSelection i i o).disabled = false := by
    rw [addUpdate_eq]; simp [hdis]
  have h2 : onAddOrRemoveOption false singleSelection
      (mapFrom (addUpdate singleSelection i) 0 options) i
      = (some Branch.remove,
         onRemoveOption singleSelection
           (mapFrom (addUpdate singleSelection i) 0 options) i) := by
    simp [onAddOrRemoveOption, harr1i, hd1, hc1]
  rw [h2]
  refine ⟨_, rfl, ?_, ?_⟩
  · intro hA
    subst hA
    exact mapFrom_eq_self _ (fun j a => by simp [removeUpdate]) 0 _
  · intro hne a ha
    rw [List.mem_iff_getElem] at ha
    obtain ⟨j, hjlen, hja⟩ := ha
    have hj2 : (mapFrom (removeUpdate singleSelection i) 0
        (mapFrom (addUpdate singleSelection i) 0 options))[j]? = some a := by
      rw [← hja]
      exact (List.getElem?_eq_some_getElem_iff _ _ hjlen).mpr trivial
    rw [getElem?_mapFrom, Nat.zero_add] at hj2
    cases hb : (mapFrom (addUpdate singleSelection i) 0 options)[j]? with
    | none => rw [hb] at hj2; simp at hj2
    | some b =>
      rw [hb] at hj2
      have hab := Option.some.inj hj2
      by_cases h : j = i
      · rw [← hab]
        simp [removeUpdate, h, hne]
      · rw [← hab]
        have hbc := hpt j b hb
        rw [if_neg h] at hbc
        simp [removeUpdate, h, hbc]

theorem single_selection_two_clicks_witness :
    ∃ arr1,
      (onAddOrRemoveOption false SingleSelection.yes
        [{ label := "a", checked := none, disabled := false,
           isGroupLabel := false },
         { label := "b", checked := none, disabled := false,
           isGroupLabel := false }] 1).2.calls = [arr1] ∧
      arr1.length = 2 ∧
      (∀ j (a : Opt), arr1[j]? = some a →
        a.checked = if j = 1 then some Checked.on else none) ∧
      ∃ arr2,
        (onAddOrRemoveOption false SingleSelection.yes arr1 1).2.calls
          = [arr2] ∧
        (∀ a ∈ arr2, a.checked = none) := by
  obtain ⟨arr1, hcalls, hlen, hpt, arr2, hcalls2, _, hclear⟩ :=
    single_selection_two_clicks SingleSelection.yes
      [{ label := "a", checked := none, disabled := false,
         isGroupLabel := false },
       { label := "b", checked := none, disabled := false,
         isGroupLabel := false }] 1
      { label := "b", checked := none, disabled := false,
        isGroupLabel := false }
      rfl rfl rfl (by decide)
  exact ⟨arr1, hcalls, hlen, hpt, arr2, hcalls2, hclear (by decide)⟩

/-- Counterexample to claim C4 as stated: with single-selection mode
`'always'`, clicking a checked-"on" option with exclusions allowed takes
the exclude branch (output checked "off"), but a second click on that
option, although it takes the remove branch, does not clear the checked
state: the produced array still has checked "off". -/
theorem exclude_then_remove_always_cex :
    (onAddOrRemoveOption true SingleSelection.always
        [{ label := "a", checked := some Checked.on, disabled := false,
           isGroupLabel := false }] 0).2.calls
      = [[{ label := "a", checked := some Checked.off, disabled := false,
            isGroupLabel := false }]] ∧
    (onAddOrRemoveOption true SingleSelection.always
        [{ label := "a", checked := some Checked.off, disabled := false,
           isGroupLabel := false }] 0).1 = some Branch.remove ∧
    (onAddOrRemoveOption true SingleSelection.always
        [{ label := "a", checked := some Checked.off, disabled := false,
           isGroupLabel := false }] 0).2.calls
      = [[{ label := "a", checked := some Checked.off, disabled := false,
            isGroupLabel := false }]] := by
  decide

/-- Claim C4 (amended): the exclude branch fires only when exclusions are
allowed and the clicked option is checked "on"; it produces an output
array in which that option's checked is "off", and a second click on that
option afterwards takes the remove branch; its checked state is cleared
provided single-selection mode is not `'always'` (in `'always'` mode the
remove is a no-op and checked stays "off"). -/
theorem exclude_fires_then_remove (singleSelection : SingleSelection)
    (options : List Opt) (i : Nat) (o : Opt)
    (ho : options[i]? = some o) (hdis : o.disabled = false)
    (hon : o.checked = some Checked.on) :
    (∀ (ae : Bool) (ss : SingleSelection) (opts : List Opt) (k : Nat),
      (onAddOrRemoveOption ae ss opts k).1 = some Branch.exclude →
      ae = true ∧ ∃ a, opts[k]? = some a ∧ a.checked = some Checked.on) ∧
    onAddOrRemoveOption true singleSelection options i
      = (some Branch.exclude, onExcludeOption options i) ∧
    ∃ arr1, (onExcludeOption options i).calls = [arr1] ∧
      arr1[i]? = some { o with checked := some Checked.off } ∧
      arr1.length = options.length ∧
      ((onAddOrRemoveOption true singleSelection arr1 i).1
          = some Branch.remove ∧
       (singleSelection ≠ SingleSelection.always →
         ∃ arr2,
           (onAddOrRemoveOption true singleSelection arr1 i).2.calls
             = [arr2] ∧
           arr2[i]? = some { o with checked := none })) := by
  have harr1i : (mapFrom (excludeUpdate i) 0
      (mapFrom (excludeUpdate i) 0 options))[i]?
      = some { o with checked := some Checked.off } := by
    rw [getElem?_mapFrom, Nat.zero_add, getElem?_mapFrom, Nat.zero_add, ho]
    simp [excludeUpdate]
  have h2 : onAddOrRemoveOption true singleSelection
      (mapFrom (excludeUpdate i) 0 (mapFrom (excludeUpdate i) 0 options)) i
      = (some Branch.remove,
         onRemoveOption singleSelection
           (mapFrom (excludeUpdate i) 0
             (mapFrom (excludeUpdate i) 0 options)) i) := by
    simp [onAddOrRemoveOption, harr1i, hdis]
  refine ⟨?_, by simp [onAddOrRemoveOption, ho, hdis, hon], _, rfl,
          harr1i, by rw [length_mapFrom, length_mapFrom], ?_, ?_⟩
  · intro ae ss opts k hbr
    unfold onAddOrRemoveOption at hbr
    cases hk : opts[k]? with
    | none => rw [hk] at hbr; simp at hbr
    | some a =>
      rw [hk] at hbr
      dsimp only at hbr
      split_ifs at hbr with hd hc hr
      all_goals first
        | exact ⟨hc.2, a, rfl, hc.1⟩
        | simp at hbr
  · rw [h2]
  · intro hne
    rw [h2]
    refine ⟨_, rfl, ?_⟩
    rw [getElem?_mapFrom, Nat.zero_add, harr1i]
    simp [removeUpdate, hne]

theorem exclude_fires_then_remove_witness :
    ∃ arr1,
      (onExcludeOption
        [{ label := "a", checked := some Checked.on, disabled := false,
           isGroupLabel := false }] 0).calls = [arr1] ∧
      arr1[0]? = some { label := "a", checked := some Checked.off,
                        disabled := false, isGroupLabel := false } ∧
      ∃ arr2,
        (onAddOrRemoveOption true SingleSelection.no arr1 0).2.calls
          = [arr2] ∧
        arr2[0]? = some { label := "a", checked := none, disabled := false,
                          isGroupLabel := false } := by
  obtain ⟨_, _, arr1, hc, hi0, _, _, hrem⟩ :=
    exclude_fires_then_remove SingleSelection.no
      [{ label := "a", checked := some Checked.on, disabled := false,
         isGroupLabel := false }] 0
      { label := "a", checked := some Checked.on, disabled := false,
        isGroupLabel := false } rfl rfl rfl
  obtain ⟨arr2, hc2, hi2⟩ := hrem (by decide)
  exact ⟨arr1, hc, hi0, arr2, hc2, hi2⟩

/-- Rendered visual state of the super-update button as a function of its
three boolean props; the i18n default strings stand for the rendered
label and tooltip nodes. -/
structure RenderedButton where
  label : String
  tooltip : Option String
  color : String
  icon : String
deriving DecidableEq, Repr

/-- Embedding of `EuiSuperUpdateButton.render`: the label is "Refresh" by
default, "Updating" when loading and "Update" when an update is needed and
not loading; the tooltip is "Cannot update" when disabled, otherwise
"Click to apply" when an update is needed and not loading; color and icon
track `needsUpdate || isLoading`. -/
def renderUpdateButton (needsUpdate isLoading isDisabled : Bool) :
    RenderedButton :=
  let buttonText := "Refresh"
  let buttonText := if needsUpdate || isLoading
    then (if isLoading then "Updating" else "Update")
    else buttonText
  let tooltipContent : Option String :=
    if isDisabled then some "Cannot update"
    else if needsUpdate && !isLoading then some "Click to apply"
    else none
  { label := buttonText, tooltip := tooltipContent,
    color := if needsUpdate || isLoading then "secondary" else "primary",
    icon := if needsUpdate || isLoading then "kqlFunction" else "refresh" }

/-- Claim C6: with `needsUpdate` and neither loading nor disabled the
label is "Update"; when loading the label is "Updating" regardless of
`needsUpdate`; when disabled the tooltip is "Cannot update" regardless of
the other flags. -/
theorem update_button_render :
    (renderUpdateButton true false false).label = "Update" ∧
    (∀ needsUpdate isDisabled : Bool,
      (renderUpdateButton needsUpdate true isDisabled).label = "Updating") ∧
    (∀ needsUpdate isLoading : Bool,
      (renderUpdateButton needsUpdate isLoading true).tooltip
        = some "Cannot update") := by
  decide

/-- Interaction state of the super-update button: the `_isMounted` flag,
whether the tooltip ref is attached, whether the tooltip is displayed, and
the absolute fire times of the `setTimeout` callbacks still pending in the
host's timer queue. -/
structure UpdateButtonState where
  isMounted : Bool
  hasTooltipRef : Bool
  tooltipVisible : Bool
  pendingTimers : List Nat
deriving DecidableEq, Repr

/-- Embedding of the `showTooltip` method: a no-op unless the component is
mounted and the tooltip ref is attached; otherwise displays the tooltip. -/
def showTooltipMethod (s : UpdateButtonState) : UpdateButtonState :=
  if s.isMounted = false ∨ s.hasTooltipRef = false then s
  else { s with tooltipVisible := true }

/-- Embedding of the `hideTooltip` method, the body of the scheduled
timeout: a no-op unless the component is mounted and the tooltip ref is
attached; otherwise dismisses the tooltip. -/
def hideTooltipMethod (s : UpdateButtonState) : UpdateButtonState :=
  if s.isMounted = false ∨ s.hasTooltipRef = false then s
  else { s with tooltipVisible := false }

/-- Embedding of the button's `componentDidUpdate` run at absolute time
`now`: when `showTooltip && needsUpdate && !isDisabled && !isLoading`,
call the `showTooltip` method and schedule a `hideTooltip` call 2000 ms
later; the stored timeout id is overwritten but the previously scheduled
timers stay in the queue (nothing calls `clearTimeout`). -/
def componentDidUpdate (showTooltip needsUpdate isDisabled isLoading : Bool)
    (now : Nat) (s : UpdateButtonState) : UpdateButtonState :=
  if showTooltip && needsUpdate && !isDisabled && !isLoading then
    let s1 := showTooltipMethod s
    { s1 with pendingTimers := s1.pendingTimers ++ [now + 2000] }
  else s

/-- Claim C7: whenever the tooltip condition holds on a property update,
the tooltip is displayed (given the component is mounted with a tooltip
ref) and its dismissal is scheduled exactly 2000 ms after `now`, with all
previously pending timers preserved — no trigger cancels an earlier
timer; and the scheduled dismissal is a no-op on an unmounted component. -/
theorem tooltip_timer (showTooltip needsUpdate isDisabled isLoading : Bool)
    (now : Nat) (s : UpdateButtonState)
    (hcond : (showTooltip && needsUpdate && !isDisabled && !isLoading)
      = true) :
    (componentDidUpdate showTooltip needsUpdate isDisabled isLoading now
        s).pendingTimers = s.pendingTimers ++ [now + 2000] ∧
    (s.isMounted = true → s.hasTooltipRef = true →
      (componentDidUpdate showTooltip needsUpdate isDisabled isLoading now
          s).tooltipVisible = true) ∧
    (∀ t : UpdateButtonState, t.isMounted = false →
      hideTooltipMethod t = t) := by
  refine ⟨?_, ?_, ?_⟩
  · have h : (showTooltipMethod s).pendingTimers = s.pendingTimers := by
      unfold showTooltipMethod
      split <;> rfl
    simp [componentDidUpdate, hcond, h]
  · intro hm hr
    simp [componentDidUpdate, hcond, showTooltipMethod, hm, hr]
  · intro t ht
    simp [hideTooltipMethod, ht]

theorem tooltip_timer_witness :
    (componentDidUpdate true true false false 100
        { isMounted := true, hasTooltipRef := true, tooltipVisible := false,
          pendingTimers := [50] }).pendingTimers = [50, 2100] ∧
    (componentDidUpdate true true false false 100
        { isMounted := true, hasTooltipRef := true, tooltipVisible := false,
          pendingTimers := [50] }).tooltipVisible = true := by
  have h := tooltip_timer true true false false 100
    { isMounted := true, hasTooltipRef := true, tooltipVisible := false,
      pendingTimers := [50] } rfl
  exact ⟨by simpa using h.1, h.2.1 rfl rfl⟩

/-- Parsed relative-time triple returned by `parseTimeParts`: the tense is
the JavaScript string "last" or "next", the unit a single letter. -/
structure TimeParts where
  timeTense : String
  timeUnits : Char
  timeValue : Nat
deriving DecidableEq, Repr

/-- Calendar-unit alphabet of relative-time expressions. -/
def timeUnitChars : List Char := ['s', 'm', 'h', 'd', 'w', 'M', 'y']

/-- Numeric value denoted by a list of decimal digit characters. -/
def digitsVal (ds : List Char) : Nat :=
  ds.foldl (fun n c => 10 * n + (c.toNat - '0'.toNat)) 0

/-- Syntactic shape of a well-formed relative-time expression: `now`
alone, `now±Nu` (sign, digit characters, unit letter) or `now/u`. -/
inductive NowExpr where
  | plain : NowExpr
  | offset : Bool → List Char → Char → NowExpr
  | rounded : Char → NowExpr
deriving DecidableEq, Repr

/-- Modelled from the spec: the grammar of the characters following the
leading `now` of a relative-time expression — nothing for `now` alone,
`/` and a unit letter for the round-to-unit form, or a `+`/`-` sign, one
or more digits and a unit letter for the offset form. -/
def parseAfterNow : List Char → Option NowExpr
  | [] => some NowExpr.plain
  | c :: rest =>
    if c = '/' then
      match rest with
      | [u] => if u ∈ timeUnitChars then some (NowExpr.rounded u) else none
      | _ => none
    else if c = '+' ∨ c = '-' then
      match rest.dropWhile Char.isDigit with
      | [u] =>
        if rest.takeWhile Char.isDigit ≠ [] ∧ u ∈ timeUnitChars then
          some (NowExpr.offset (c = '+') (rest.takeWhile Char.isDigit) u)
        else none
      | _ => none
    else none

/-- Modelled from the spec: recognise a relative-time expression as the
literal characters `now` followed by a valid suffix. -/
def parseNowExpr (s : String) : Option NowExpr :=
  if s.data.take 3 = ['n', 'o', 'w'] then parseAfterNow (s.data.drop 3)
  else none

/-- Modelled from the spec: `parseTimeParts` of `quick_select_utils.ts`
(only its test file is in the corpus; the implementation is absent).  Per
the spec, `now` alone parses as tense "next" with unit and value taken
from parsing the fallback expression; `now±Nu` gives tense "next" for `+`
and "last" for `-`, value `N` and unit `u`; `now/u` gives tense "last",
unit "h" and a value delegated to an external calendar library, passed
here as `hoursSinceBoundary`.  Behaviour on malformed input is
unconstrained by the spec; the model returns a fixed default. -/
def parseTimeParts (expr fallback : String) (hoursSinceBoundary : Nat) :
    TimeParts :=
  match parseNowExpr expr with
  | some NowExpr.plain =>
    match parseNowExpr fallback with
    | some (NowExpr.offset _ ds u) =>
      { timeTense := "next", timeUnits := u, timeValue := digitsVal ds }
    | _ => { timeTense := "next", timeUnits := 'm', timeValue := 0 }
  | some (NowExpr.offset plus ds u) =>
    { timeTense := if plus then "next" else "last", timeUnits := u,
      timeValue := digitsVal ds }
  | some (NowExpr.rounded _) =>
    { timeTense := "last", timeUnits := 'h',
      timeValue := hoursSinceBoundary }
  | none => { timeTense := "next", timeUnits := 'm', timeValue := 0 }

theorem unit_not_digit (c : Char) (hc : c ∈ timeUnitChars) :
    c.isDigit = false := by
  simp [timeUnitChars] at hc
  rcases hc with h | h | h | h | h | h | h <;> subst h <;> rfl

theorem takeWhile_all_append (p : Char → Bool) (ds : List Char) (u : Char)
    (hds : ∀ c ∈ ds, p c = true) (hu : p u = false) :
    (ds ++ [u]).takeWhile p = ds ∧ (ds ++ [u]).dropWhile p = [u] := by
  induction ds with
  | nil => simp [List.takeWhile, List.dropWhile, hu]
  | cons c rest ih =>
    have hc : p c = true := hds c (by simp)
    obtain ⟨h1, h2⟩ := ih fun x hx => hds x (by simp [hx])
    simp [List.takeWhile_cons, List.dropWhile_cons, hc, h1, h2]

theorem parseAfterNow_offset (c : Char) (ds : List Char) (u : Char)
    (hc : c = '+' ∨ c = '-') (hne : ds ≠ [])
    (hdig : ∀ x ∈ ds, x.isDigit = true) (hu : u ∈ timeUnitChars) :
    parseAfterNow (c :: (ds ++ [u]))
      = some (NowExpr.offset (decide (c = '+')) ds u) := by
  obtain ⟨htake, hdrop⟩ :=
    takeWhile_all_append Char.isDigit ds u hdig (unit_not_digit u hu)
  have hns : ¬(c = '/') := by rcases hc with h | h <;> subst h <;> decide
  simp only [parseAfterNow]
  rw [if_neg hns, if_pos hc, hdrop]
  dsimp only
  rw [htake, if_pos ⟨hne, hu⟩]

/-- Claim C8: every well-formed `now±Nu` string (sign, positive integer
denoted by the digit characters, unit letter) parses to tense "next" for
`+` and "last" for `-`, value `N` and unit `u`, for any fallback argument
and any delegated hour count. -/
theorem parseTimeParts_offset (plus : Bool) (ds : List Char) (u : Char)
    (N : Nat) (fallback : String) (hb : Nat)
    (hne : ds ≠ []) (hdig : ∀ c ∈ ds, c.isDigit = true)
    (hu : u ∈ timeUnitChars) (hN : digitsVal ds = N) (hpos : 0 < N) :
    parseTimeParts
        (String.mk ('n' :: 'o' :: 'w' :: (if plus then '+' else '-')
          :: (ds ++ [u])))
        fallback hb
      = { timeTense := if plus then "next" else "last", timeUnits := u,
          timeValue := N } := by
  subst hN
  have hparse : parseNowExpr (String.mk ('n' :: 'o' :: 'w'
      :: (if plus then '+' else '-') :: (ds ++ [u])))
      = some (NowExpr.offset plus ds u) := by
    unfold parseNowExpr
    have hcond : List.take 3 (String.mk ('n' :: 'o' :: 'w'
        :: (if plus then '+' else '-') :: (ds ++ [u]))).data
        = ['n', 'o', 'w'] := rfl
    rw [if_pos hcond]
    have h := parseAfterNow_offset (if plus then '+' else '-') ds u
      (by cases plus <;> simp) hne hdig hu
    rw [show (String.mk ('n' :: 'o' :: 'w'
        :: (if plus then '+' else '-') :: (ds ++ [u]))).data.drop 3
      = (if plus then '+' else '-') :: (ds ++ [u]) from rfl, h]
    cases plus <;> rfl
  unfold parseTimeParts
  rw [hparse]

theorem parseTimeParts_offset_witness :
    parseTimeParts (String.mk ['n', 'o', 'w', '+', '5', 'm']) "now-3h" 0
      = { timeTense := "next", timeUnits := 'm', timeValue := 5 } :=
  parseTimeParts_offset true ['5'] 'm' 5 "now-3h" 0 (by decide) (by decide)
    (by decide) (by decide) (by decide)

/-- Claim C9: `parseTimeParts` applied to the exact string `now` returns
tense "next" with unit and value taken from parsing the fallback
expression; in particular with fallback `now+5m` it returns next, unit m,
value 5. -/
theorem parseTimeParts_now (fallback : String) (plus : Bool)
    (ds : List Char) (u : Char) (hb : Nat)
    (hfb : parseNowExpr fallback = some (NowExpr.offset plus ds u)) :
    parseTimeParts "now" fallback hb
      = { timeTense := "next", timeUnits := u,
          timeValue := digitsVal ds } ∧
    parseTimeParts "now" "now+5m" hb
      = { timeTense := "next", timeUnits := 'm', timeValue := 5 } := by
  constructor
  · unfold parseTimeParts
    rw [show parseNowExpr "now" = some NowExpr.plain from rfl, hfb]
  · rfl

theorem parseTimeParts_now_witness :
    parseTimeParts "now" "now-2h" 7
      = { timeTense := "next", timeUnits := 'h', timeValue := 2 } :=
  (parseTimeParts_now "now-2h" false ['2'] 'h' 7 (by decide)).1
